import Mathlib

/-!
Shallow embedding of the SQL-assistant conversation workflow engine
(`src/sql_assistant/agent.py` and `src/sql_assistant/api.py`).

Messages are modelled as a sum type mirroring the LangChain message kinds the
code inspects (`HumanMessage`, `AIMessage` with `tool_calls`, `ToolMessage`
with a tool `name`).  The LangGraph state graph is modelled as an explicit
fuel-indexed loop over the node enum; `interrupt_before=["human_approval"]`
is modelled by the loop stopping whenever the pending node is
`human_approval`.  The language model and the database are oracles passed in
as parameters, since they are external capabilities.  Strings are modelled by
Lean `String`; Python `str.startswith`/`str.strip` and the regex
search for fenced code blocks are modelled character-list-wise.
-/

namespace SqlAssistant

/-- A tool invocation requested inside an agent (AI) message:
tool name plus (opaque) arguments. -/
structure ToolRequest where
  name : String
  args : String
deriving DecidableEq, Repr

/-- The message kinds the routing code inspects: `user` is `HumanMessage`,
`agent` is `AIMessage` (content plus `tool_calls`), `tool` is `ToolMessage`
(tool `name` plus content). -/
inductive Message where
  | user (content : String)
  | agent (content : String) (tool_calls : List ToolRequest)
  | tool (name : String) (content : String)
deriving DecidableEq, Repr

/-- Graph nodes of `create_agent_graph`; `END` is the terminal marker. -/
inductive Node where
  | agent
  | tools
  | human_approval
  | END
deriving DecidableEq, Repr

/-- `hasattr(last_message, "tool_calls") and last_message.tool_calls`:
only AI messages carry a `tool_calls` attribute, and the check is truthy
(non-empty list). -/
def has_tool_calls : Message → Bool
  | Message.agent _ tool_calls => !tool_calls.isEmpty
  | _ => false

/-- `should_continue` from `agent.py` (routing after the `agent` node).
`none` models the `IndexError` Python would raise on an empty log. -/
def should_continue (messages : List Message) : Option Node :=
  match messages.getLast? with
  | none => none
  | some last =>
    if has_tool_calls last then some Node.tools
    else if 1 < messages.length then
      match messages.dropLast.getLast? with
      | some (Message.tool n _) =>
          if n = "execute_postgres_query" then some Node.END else some Node.human_approval
      | _ => some Node.human_approval
    else some Node.human_approval

/-- `route_tool_output` from `agent.py` (routing after the `tools` node). -/
def route_tool_output (messages : List Message) : Option Node :=
  match messages.getLast? with
  | none => none
  | some (Message.tool n _) =>
      if n = "execute_postgres_query" then some Node.END else some Node.agent
  | some _ => some Node.agent

/-- Python `s.startswith(p)`, character-list-wise. -/
def startswith (s p : String) : Bool :=
  p.data.isPrefixOf s.data

/-- `check_approval_outcome` from `agent.py` (routing after the
`human_approval` node, i.e. on resume). -/
def check_approval_outcome (messages : List Message) : Option Node :=
  match messages.getLast? with
  | none => none
  | some (Message.user content) =>
      if startswith content "<SYSTEM:" then some Node.END else some Node.agent
  | some _ => some Node.END

/-! ## The execute_postgres_query tool

The database is an oracle: `Except.error e` models `cursor.execute` raising
an exception with text `e`; `Except.ok (columns, results)` models a
successful execution (cells already stringified, as the code does with
`str(cell)`; a statement with no `cursor.description` is `ok ([], [])`). -/

/-- The markdown-table lines built by `execute_postgres_query` for a
non-empty result: header, separator, at most 10 data rows, and a
`... (N more rows)` line when rows were omitted. -/
def format_query_result_lines (columns : List String)
    (results : List (List String)) : List String :=
  let header := "| " ++ String.intercalate " | " columns ++ " |"
  let separator := "| " ++ String.intercalate " | " (List.replicate columns.length "---") ++ " |"
  let rows := (results.take 10).map (fun row => "| " ++ String.intercalate " | " row ++ " |")
  let rows := if 10 < results.length then
      rows ++ ["... (" ++ toString (results.length - 10) ++ " more rows)"]
    else rows
  [header, separator] ++ rows

/-- `execute_postgres_query` from `agent.py`, over a database oracle. -/
def execute_postgres_query
    (db : Except String (List String × List (List String))) : String :=
  match db with
  | Except.error e => "Error executing query: " ++ e
  | Except.ok (columns, results) =>
    if results.isEmpty then "Query executed successfully per row count: 0"
    else String.intercalate "\n" (format_query_result_lines columns results)

/-! ## The workflow engine

`create_agent_graph` compiles a graph with nodes `agent`, `tools`,
`human_approval`, conditional edges given by the three routing functions and
`interrupt_before=["human_approval"]`.  `runLoop` drives it: the loop stops
at `END` (terminal) and at `human_approval` (interrupt before executing it);
otherwise it executes the current node, appends its messages and routes.
The model oracle stands for the bound LLM: given the history it returns the
AI reply content and its tool calls. -/

/-- One run's outcome: final log, pending node (`END` = no pending node,
i.e. terminal) and the ordered trace of executed nodes. -/
structure RunResult where
  messages : List Message
  pending : Node
  trace : List Node
deriving DecidableEq, Repr

/-- The `ToolNode`: executes every requested tool call in order, wrapping
each result as a `ToolMessage` carrying the request's tool name. -/
def execTools (toolExec : String → String → String)
    (reqs : List ToolRequest) : List Message :=
  reqs.map (fun tc => Message.tool tc.name (toolExec tc.name tc.args))

/-- The compiled graph's execution loop, fuel-indexed.  `Option.getD` with
`Node.END` is unreachable filler for the empty-log case of the routing
functions (the log is never empty at a routing point). -/
def runLoop (model : List Message → String × List ToolRequest)
    (toolExec : String → String → String) :
    Nat → List Message → Node → List Node → RunResult
  | 0, msgs, node, tr => ⟨msgs, node, tr⟩
  | fuel + 1, msgs, node, tr =>
    match node with
    | Node.END => ⟨msgs, Node.END, tr⟩
    | Node.human_approval => ⟨msgs, Node.human_approval, tr⟩
    | Node.agent =>
      let msgs2 := msgs ++ [Message.agent (model msgs).1 (model msgs).2]
      runLoop model toolExec fuel msgs2 ((should_continue msgs2).getD Node.END)
        (tr ++ [Node.agent])
    | Node.tools =>
      let reqs := match msgs.getLast? with
        | some (Message.agent _ tool_calls) => tool_calls
        | _ => []
      let msgs2 := msgs ++ execTools toolExec reqs
      runLoop model toolExec fuel msgs2 ((route_tool_output msgs2).getD Node.END)
        (tr ++ [Node.tools])

/-- Resuming an interrupted thread (`graph.stream(None, config)`): the
interrupted `human_approval` node runs (a pass-through appending nothing)
and `check_approval_outcome` routes onward. -/
def resume (model : List Message → String × List ToolRequest)
    (toolExec : String → String → String) (fuel : Nat)
    (msgs : List Message) : RunResult :=
  runLoop model toolExec fuel msgs ((check_approval_outcome msgs).getD Node.END)
    [Node.human_approval]

/-- Starting a turn with a fresh user message: `START -> agent` with the
message appended to the loaded log. -/
def startTurn (model : List Message → String × List ToolRequest)
    (toolExec : String → String → String) (fuel : Nat)
    (msgs : List Message) (text : String) : RunResult :=
  runLoop model toolExec fuel (msgs ++ [Message.user text]) Node.agent []

/-! ## The API layer (`api.py`) -/

/-- The `content` attribute of a message. -/
def msgContent : Message → String
  | Message.user c => c
  | Message.agent c _ => c
  | Message.tool _ c => c

/-- A thread's committed checkpoint: ordered log plus pending node
(`END` = no pending node). -/
structure ThreadState where
  messages : List Message
  pending : Node
deriving DecidableEq, Repr

/-- The fields of `ChatResponse` the claims are about. -/
structure ChatResponse where
  response : String
  status : String
  query : Option String
deriving DecidableEq, Repr

/-- `process_run` from `api.py`: status from the snapshot's pending node,
response from the last message (with the empty-state fallback). -/
def process_run (result : RunResult) : ChatResponse :=
  match result.messages.getLast? with
  | none => ⟨"Error: No state found.", "done", none⟩
  | some m =>
    ⟨msgContent m,
     if result.pending = Node.human_approval then "approval_required" else "done",
     none⟩

/-- `execute_query_locally` from `api.py`, over a database oracle:
returns `(result_text, error)`. -/
def execute_query_locally
    (db : String → Except String (List String × List (List String)))
    (query : String) : String × Option String :=
  match db query with
  | Except.error e => ("Error executing query: " ++ e, some e)
  | Except.ok (columns, results) =>
    if results.isEmpty then ("[Execution Result]: No results found.", none)
    else
      let header := "| " ++ String.intercalate " | " columns ++ " |"
      let separator := "| " ++ String.intercalate " | " (List.replicate columns.length "---") ++ " |"
      let rows_md := results.map (fun row => "| " ++ String.intercalate " | " row ++ " |")
      (String.intercalate "\n" ([header, separator] ++ rows_md), none)

/-! ## The fenced-code-block regex

`re.search(r"```(?:sql)?(.*?)```", content, re.DOTALL)`: the scan tries
every start position left to right; at a position opening with three
backticks it greedily takes an optional literal `sql` tag, then lazily
captures up to the earliest closing triple (backtracking over the optional
tag if taking it leaves no closing triple). -/

/-- The backtick character (code point 96). -/
def btick : Char := Char.ofNat 96

/-- The literal `sql` tag of the regex. -/
def sqlTag : List Char := ['s', 'q', 'l']

/-- Lazy capture `(.*?)` followed by a closing triple backtick: returns the
shortest prefix that is followed by three backticks, or `none`. -/
def captureUpToTriple : List Char → Option (List Char)
  | c1 :: c2 :: c3 :: rest =>
    if c1 = btick ∧ c2 = btick ∧ c3 = btick then some []
    else (captureUpToTriple (c2 :: c3 :: rest)).map (fun g => c1 :: g)
  | _ => none

/-- After an opening triple: optionally consume the `sql` tag (greedy,
with backtracking), then capture lazily up to a closing triple. -/
def matchBlockAt (rest : List Char) : Option (List Char) :=
  if sqlTag.isPrefixOf rest then
    match captureUpToTriple (rest.drop 3) with
    | some g => some g
    | none => captureUpToTriple rest
  else captureUpToTriple rest

/-- Scan of `re.search`: try each start position left to right. -/
def searchBlockAux : Nat → List Char → Option (List Char)
  | 0, _ => none
  | fuel + 1, l =>
    match l with
    | c1 :: c2 :: c3 :: rest =>
      if c1 = btick ∧ c2 = btick ∧ c3 = btick then
        match matchBlockAt rest with
        | some g => some g
        | none => searchBlockAux fuel (c2 :: c3 :: rest)
      else searchBlockAux fuel (c2 :: c3 :: rest)
    | _ => none

/-- `re.search(r"```(?:sql)?(.*?)```", content, re.DOTALL)`: the first
match's capture group, if any. -/
def searchBlock (l : List Char) : Option (List Char) :=
  searchBlockAux l.length l

/-- Python `str.strip()`: drop whitespace from both ends. -/
def pyStrip (s : String) : String :=
  String.mk (((s.data.dropWhile Char.isWhitespace).reverse.dropWhile Char.isWhitespace).reverse)

/-- The SQL-extraction step shared by the approve path and the auto-execute
path of `api.py`: the stripped capture of the first fenced code block, or
the whole stripped content when there is no block. -/
def extract_sql (content : String) : String :=
  match searchBlock content.data with
  | some g => pyStrip (String.mk g)
  | none => pyStrip content

/-- Whether the regex finds a fenced code block at all. -/
def has_code_block (content : String) : Bool :=
  (searchBlock content.data).isSome

/-- The `/approval` endpoint from `api.py`.  First component: the HTTP
outcome (`Except.error` is the 400 `HTTPException`); second component: the
thread's state after the call. -/
def approval (model : List Message → String × List ToolRequest)
    (toolExec : String → String → String) (fuel : Nat)
    (db : String → Except String (List String × List (List String)))
    (st : ThreadState) (decision : String) (feedback : Option String) :
    Except String ChatResponse × ThreadState :=
  if st.pending = Node.human_approval then
    if decision = "approve" then
      let content := (st.messages.getLast?).elim "" msgContent
      let query := extract_sql content
      match execute_query_locally db query with
      | (_, some e) =>
        (Except.ok ⟨"Error executing query: " ++ e, "done", some query⟩, st)
      | (result_text, none) =>
        let msgs2 := st.messages ++ [Message.user "<SYSTEM: Execution Completed Locally>"]
        let run := resume model toolExec fuel msgs2
        (Except.ok ⟨"**Execution Result**:\n\n" ++ result_text, "done", some query⟩,
         ⟨run.messages, run.pending⟩)
    else
      let fb := match feedback with
        | none => "Rejected."
        | some f => if f = "" then "Rejected." else f
      let msgs2 := st.messages ++ [Message.user ("Rejected. Feedback: " ++ fb)]
      let run := resume model toolExec fuel msgs2
      (Except.ok (process_run run), ⟨run.messages, run.pending⟩)
  else
    (Except.error "Conversation is not waiting for approval.", st)

/-- The `/chat` endpoint from `api.py`: on a thread suspended at
`human_approval` the message is injected as rejection feedback and the run
resumed with `inputs = None`; otherwise a fresh turn starts.  Afterwards the
auto-execute branch may extract and run the proposed query locally and close
the turn with the reserved control message. -/
def chat (model : List Message → String × List ToolRequest)
    (toolExec : String → String → String) (fuel : Nat)
    (db : String → Except String (List String × List (List String)))
    (st : ThreadState) (message : String) (auto_execute : Bool) :
    ChatResponse × ThreadState :=
  let run :=
    if st.pending = Node.human_approval then
      resume model toolExec fuel
        (st.messages ++ [Message.user ("Rejected. Feedback: " ++ message)])
    else
      startTurn model toolExec fuel st.messages message
  let chat_response := process_run run
  let st1 : ThreadState := ⟨run.messages, run.pending⟩
  if auto_execute ∧ chat_response.status = "approval_required" then
    let query := extract_sql chat_response.response
    match execute_query_locally db query with
    | (_, some e) =>
      (⟨"Error executing query (Auto-Mode): " ++ e, "done", some query⟩, st1)
    | (result_text, none) =>
      let msgs2 := st1.messages ++ [Message.user "<SYSTEM: Execution Completed Locally>"]
      let run2 := resume model toolExec fuel msgs2
      (⟨"**Auto Execution Result**:\n\n" ++ result_text, "done", some query⟩,
       ⟨run2.messages, run2.pending⟩)
  else (chat_response, st1)

/-! ## Concrete oracles for witnesses and counterexamples -/

/-- A model oracle that always answers `hello` with no tool calls. -/
def model0 : List Message → String × List ToolRequest := fun _ => ("hello", [])

/-- A tool oracle returning the empty string. -/
def toolExec0 : String → String → String := fun _ _ => ""

/-- A database oracle returning an empty result for every query. -/
def db0 : String → Except String (List String × List (List String)) :=
  fun _ => Except.ok ([], [])

/-! ## Engine lemmas -/

/-- The loop halts at the terminal marker: nothing runs after `END`. -/
theorem runLoop_END (model : List Message → String × List ToolRequest)
    (toolExec : String → String → String) (fuel : Nat)
    (msgs : List Message) (tr : List Node) :
    runLoop model toolExec fuel msgs Node.END tr = ⟨msgs, Node.END, tr⟩ := by
  cases fuel <;> rfl

/-- `interrupt_before=["human_approval"]`: the loop commits and stops when
the pending node is `human_approval`, executing nothing further. -/
theorem runLoop_HA (model : List Message → String × List ToolRequest)
    (toolExec : String → String → String) (fuel : Nat)
    (msgs : List Message) (tr : List Node) :
    runLoop model toolExec fuel msgs Node.human_approval tr
      = ⟨msgs, Node.human_approval, tr⟩ := by
  cases fuel <;> rfl

/-- The run is append-only: the final log extends the initial log and the
final trace extends the initial trace. -/
theorem runLoop_extend (model : List Message → String × List ToolRequest)
    (toolExec : String → String → String) :
    ∀ (fuel : Nat) (msgs : List Message) (node : Node) (tr : List Node),
      ∃ mext text,
        (runLoop model toolExec fuel msgs node tr).messages = msgs ++ mext
        ∧ (runLoop model toolExec fuel msgs node tr).trace = tr ++ text := by
  intro fuel
  induction fuel with
  | zero => intro msgs node tr; exact ⟨[], [], by simp [runLoop], by simp [runLoop]⟩
  | succ fuel ih =>
    intro msgs node tr
    cases node with
    | END => exact ⟨[], [], by simp [runLoop], by simp [runLoop]⟩
    | human_approval => exact ⟨[], [], by simp [runLoop], by simp [runLoop]⟩
    | agent =>
      obtain ⟨mext, text, hm, ht⟩ :=
        ih (msgs ++ [Message.agent (model msgs).1 (model msgs).2])
          ((should_continue (msgs ++ [Message.agent (model msgs).1 (model msgs).2])).getD Node.END)
          (tr ++ [Node.agent])
      exact ⟨[Message.agent (model msgs).1 (model msgs).2] ++ mext, [Node.agent] ++ text,
        by simpa [runLoop] using hm, by simpa [runLoop] using ht⟩
    | tools =>
      obtain ⟨mext, text, hm, ht⟩ :=
        ih (msgs ++ execTools toolExec (match msgs.getLast? with
              | some (Message.agent _ tool_calls) => tool_calls
              | _ => []))
          ((route_tool_output (msgs ++ execTools toolExec (match msgs.getLast? with
              | some (Message.agent _ tool_calls) => tool_calls
              | _ => []))).getD Node.END)
          (tr ++ [Node.tools])
      exact ⟨execTools toolExec (match msgs.getLast? with
              | some (Message.agent _ tool_calls) => tool_calls
              | _ => []) ++ mext, [Node.tools] ++ text,
        by simpa [runLoop] using hm, by simpa [runLoop] using ht⟩

/-- The post-agent routing decision when the AI message has no tool calls,
as a function of what precedes it: terminal exactly when the preceding
message is a `ToolMessage` from the execute-action tool. -/
def after_agent_no_calls : Option Message → Node
  | some (Message.tool n _) =>
      if n = "execute_postgres_query" then Node.END else Node.human_approval
  | _ => Node.human_approval

/-- `after_agent_no_calls` never routes to `agent` or `tools`. -/
theorem after_agent_no_calls_cases (o : Option Message) :
    after_agent_no_calls o = Node.END ∨ after_agent_no_calls o = Node.human_approval := by
  rcases o with _ | m
  · exact Or.inr rfl
  · cases m with
    | user c => exact Or.inr rfl
    | agent c tcs => exact Or.inr rfl
    | tool n c =>
      by_cases h : n = "execute_postgres_query"
      · exact Or.inl (by simp [after_agent_no_calls, h])
      · exact Or.inr (by simp [after_agent_no_calls, h])

/-- `should_continue` on a log ending in an AI message, in closed form. -/
theorem should_continue_concat (p : List Message) (c : String) (tcs : List ToolRequest) :
    should_continue (p ++ [Message.agent c tcs]) =
      some (if tcs ≠ [] then Node.tools else after_agent_no_calls p.getLast?) := by
  unfold should_continue
  rw [List.getLast?_concat, List.dropLast_concat]
  by_cases htc : tcs = []
  · subst htc
    cases p with
    | nil => simp [has_tool_calls, after_agent_no_calls]
    | cons a as =>
      have hlen : 1 < ((a :: as) ++ [Message.agent c []]).length := by
        simp [List.length_append]
      simp only [has_tool_calls, List.isEmpty_nil, Bool.not_true, Bool.false_eq_true, if_false]
      rw [if_pos hlen]
      simp only [ne_eq, not_true_eq_false, if_false]
      rcases hL : (a :: as).getLast? with _ | m
      · simp at hL
      · cases m with
        | user c2 => simp [after_agent_no_calls]
        | agent c2 t2 => simp [after_agent_no_calls]
        | tool n2 c2 =>
          simp only [after_agent_no_calls]
          split <;> simp
  · have : tcs.isEmpty = false := by
      cases tcs with
      | nil => exact absurd rfl htc
      | cons t ts => rfl
    simp [has_tool_calls, this, htc]

/-- `route_tool_output` only ever routes to `END` or back to `agent`. -/
theorem route_tool_output_cases (l : List Message) :
    route_tool_output l = none ∨ route_tool_output l = some Node.END
      ∨ route_tool_output l = some Node.agent := by
  unfold route_tool_output
  rcases l.getLast? with _ | m
  · exact Or.inl rfl
  · cases m with
    | user c => exact Or.inr (Or.inr rfl)
    | agent c tcs => exact Or.inr (Or.inr rfl)
    | tool n c =>
      by_cases h : n = "execute_postgres_query"
      · simp [h]
      · simp [h]

/-- Every committed checkpoint a run reaches with pending node
`human_approval` (entering from any other node) has, as its last message, an
AI message with no tool calls — the approval interrupt is only ever reached
right after the `agent` node produced a reply with no tool requests. -/
theorem runLoop_pending_HA_inv (model : List Message → String × List ToolRequest)
    (toolExec : String → String → String) :
    ∀ (fuel : Nat) (msgs : List Message) (node : Node) (tr : List Node),
      node ≠ Node.human_approval →
      (runLoop model toolExec fuel msgs node tr).pending = Node.human_approval →
      ∃ c, (runLoop model toolExec fuel msgs node tr).messages.getLast?
            = some (Message.agent c []) := by
  intro fuel
  induction fuel with
  | zero =>
    intro msgs node tr hne hp
    simp [runLoop] at hp
    exact absurd hp hne
  | succ fuel ih =>
    intro msgs node tr hne hp
    cases node with
    | END => rw [runLoop_END] at hp ⊢; exact absurd hp (by simp)
    | human_approval => exact absurd rfl hne
    | agent =>
      rw [show runLoop model toolExec (fuel + 1) msgs Node.agent tr
          = runLoop model toolExec fuel
              (msgs ++ [Message.agent (model msgs).1 (model msgs).2])
              ((should_continue (msgs ++ [Message.agent (model msgs).1 (model msgs).2])).getD Node.END)
              (tr ++ [Node.agent]) from rfl] at hp ⊢
      rw [should_continue_concat] at hp ⊢
      by_cases htc : (model msgs).2 = []
      · rw [htc] at hp ⊢
        simp only [ne_eq, not_true_eq_false, if_false, Option.getD_some] at hp ⊢
        rcases after_agent_no_calls_cases msgs.getLast? with hv | hv
        · rw [hv] at hp
          rw [runLoop_END] at hp
          exact absurd hp (by simp)
        · rw [hv] at hp ⊢
          rw [runLoop_HA] at hp ⊢
          exact ⟨(model msgs).1, by rw [List.getLast?_concat]⟩
      · rw [if_pos htc] at hp ⊢
        exact ih _ _ _ (by simp) hp
    | tools =>
      rw [show runLoop model toolExec (fuel + 1) msgs Node.tools tr
          = runLoop model toolExec fuel
              (msgs ++ execTools toolExec (match msgs.getLast? with
                | some (Message.agent _ tool_calls) => tool_calls
                | _ => []))
              ((route_tool_output (msgs ++ execTools toolExec (match msgs.getLast? with
                | some (Message.agent _ tool_calls) => tool_calls
                | _ => []))).getD Node.END)
              (tr ++ [Node.tools]) from rfl] at hp ⊢
      rcases route_tool_output_cases (msgs ++ execTools toolExec (match msgs.getLast? with
                | some (Message.agent _ tool_calls) => tool_calls
                | _ => [])) with hr | hr | hr
      · rw [hr] at hp ⊢
        simp only [Option.getD_none] at hp ⊢
        rw [runLoop_END] at hp
        exact absurd hp (by simp)
      · rw [hr] at hp ⊢
        simp only [Option.getD_some] at hp ⊢
        rw [runLoop_END] at hp
        exact absurd hp (by simp)
      · rw [hr] at hp ⊢
        simp only [Option.getD_some] at hp ⊢
        exact ih _ _ _ (by simp) hp

/-- The rejection-feedback message `Rejected. Feedback: <anything>` never
starts with the reserved control prefix `<SYSTEM:`. -/
theorem rejected_feedback_not_control (s : String) :
    startswith ("Rejected. Feedback: " ++ s) "<SYSTEM:" = false := by
  unfold startswith
  rw [String.data_append]
  rfl

/-! ## The claims -/

/-- Claim C1: on a message log whose last message is an AI (agent) message,
the after-agent routing (`should_continue`) goes to the tools node exactly
when that message carries one or more tool calls; otherwise it is terminal
when the second-to-last message is a `ToolMessage` from
`execute_postgres_query`, and goes to human approval in every other case
(`after_agent_no_calls` spells out that decision over the preceding
message). -/
theorem C1_after_agent_routing (p : List Message) (c : String) (tcs : List ToolRequest) :
    should_continue (p ++ [Message.agent c tcs]) =
      some (if tcs ≠ [] then Node.tools else after_agent_no_calls p.getLast?) :=
  should_continue_concat p c tcs

/-- Claim C2: when the tools node has just produced, as the latest message,
a `ToolMessage` from the execute-action tool `execute_postgres_query`, the
routing is terminal and nothing further (in particular no agent node) runs
in that run; a latest `ToolMessage` from any other tool routes back to the
agent node. -/
theorem C2_exec_result_bypass (model : List Message → String × List ToolRequest)
    (toolExec : String → String → String) (fuel : Nat)
    (msgs : List Message) (n c : String) (tr : List Node)
    (h : msgs.getLast? = some (Message.tool n c)) :
    (n = "execute_postgres_query" →
      route_tool_output msgs = some Node.END
      ∧ runLoop model toolExec fuel msgs Node.END tr = ⟨msgs, Node.END, tr⟩)
    ∧ (n ≠ "execute_postgres_query" → route_tool_output msgs = some Node.agent) := by
  constructor
  · intro hn
    refine ⟨?_, runLoop_END model toolExec fuel msgs tr⟩
    unfold route_tool_output
    rw [h, hn]
    simp
  · intro hn
    unfold route_tool_output
    rw [h]
    simp [hn]

/-- Witness for C2: a concrete log ending in an `execute_postgres_query`
result is terminal and the run executes nothing further. -/
theorem C2_exec_result_bypass_witness :
    route_tool_output [Message.tool "execute_postgres_query" "ok"] = some Node.END
    ∧ runLoop model0 toolExec0 3 [Message.tool "execute_postgres_query" "ok"] Node.END []
        = ⟨[Message.tool "execute_postgres_query" "ok"], Node.END, []⟩ :=
  (C2_exec_result_bypass model0 toolExec0 3 [Message.tool "execute_postgres_query" "ok"]
    "execute_postgres_query" "ok" [] rfl).1 rfl

/-- Claim C3 as stated is false: this run commits with pending node
`human_approval` while its last message, the AI message `hello`, contains no
formatted action block (no fenced code block). -/
theorem C3_counterexample :
    (runLoop model0 toolExec0 5 [Message.user "hi"] Node.agent []).pending
        = Node.human_approval
    ∧ (runLoop model0 toolExec0 5 [Message.user "hi"] Node.agent []).messages.getLast?
        = some (Message.agent "hello" [])
    ∧ has_code_block "hello" = false :=
  ⟨rfl, rfl, by decide⟩

/-- Claim C3 (amended): every run that commits with pending node
`human_approval` (entered at any other node) has as the log's last message
an AI message carrying no unresolved tool request; and a run positioned at
`human_approval` commits as-is without advancing further in the same
invocation.  (The code does not guarantee the AI message's text contains a
formatted action block.) -/
theorem C3_pending_HA_invariant (model : List Message → String × List ToolRequest)
    (toolExec : String → String → String) (fuel : Nat) (msgs : List Message)
    (node : Node) (tr : List Node)
    (hne : node ≠ Node.human_approval)
    (hp : (runLoop model toolExec fuel msgs node tr).pending = Node.human_approval) :
    (∃ c, (runLoop model toolExec fuel msgs node tr).messages.getLast?
        = some (Message.agent c []))
    ∧ ∀ (fuel2 : Nat) (msgs2 : List Message) (tr2 : List Node),
        runLoop model toolExec fuel2 msgs2 Node.human_approval tr2
          = ⟨msgs2, Node.human_approval, tr2⟩ :=
  ⟨runLoop_pending_HA_inv model toolExec fuel msgs node tr hne hp,
   fun fuel2 msgs2 tr2 => runLoop_HA model toolExec fuel2 msgs2 tr2⟩

/-- Witness for C3 (amended) at a concrete run that interrupts at approval. -/
theorem C3_pending_HA_invariant_witness :
    (∃ c, (runLoop model0 toolExec0 5 [Message.user "hi"] Node.agent []).messages.getLast?
        = some (Message.agent c []))
    ∧ runLoop model0 toolExec0 7 [Message.user "z"] Node.human_approval [Node.agent]
        = ⟨[Message.user "z"], Node.human_approval, [Node.agent]⟩ :=
  ⟨(C3_pending_HA_invariant model0 toolExec0 5 [Message.user "hi"] Node.agent []
      (by simp) rfl).1,
   (C3_pending_HA_invariant model0 toolExec0 5 [Message.user "hi"] Node.agent []
      (by simp) rfl).2 7 [Message.user "z"] [Node.agent]⟩

/-- Claim C4: resuming from the human-approval interrupt when the latest
message is a `UserMessage`: if its text starts with the reserved control
prefix `<SYSTEM:` the run is terminal at once (nothing further executes);
otherwise routing returns to the agent node, which is the next node the
resumed run executes. -/
theorem C4_resume_routing (model : List Message → String × List ToolRequest)
    (toolExec : String → String → String) (fuel : Nat) (msgs : List Message)
    (c : String) (h : msgs.getLast? = some (Message.user c)) :
    (startswith c "<SYSTEM:" = true →
      check_approval_outcome msgs = some Node.END
      ∧ resume model toolExec fuel msgs = ⟨msgs, Node.END, [Node.human_approval]⟩)
    ∧ (startswith c "<SYSTEM:" = false →
      check_approval_outcome msgs = some Node.agent
      ∧ (resume model toolExec (fuel + 1) msgs).trace.take 2
          = [Node.human_approval, Node.agent]) := by
  constructor
  · intro hs
    have hc : check_approval_outcome msgs = some Node.END := by
      unfold check_approval_outcome
      rw [h]
      simp [hs]
    refine ⟨hc, ?_⟩
    unfold resume
    rw [hc]
    exact runLoop_END model toolExec fuel msgs [Node.human_approval]
  · intro hs
    have hc : check_approval_outcome msgs = some Node.agent := by
      unfold check_approval_outcome
      rw [h]
      simp [hs]
    refine ⟨hc, ?_⟩
    unfold resume
    rw [hc]
    show (runLoop model toolExec fuel
        (msgs ++ [Message.agent (model msgs).1 (model msgs).2])
        ((should_continue (msgs ++ [Message.agent (model msgs).1 (model msgs).2])).getD Node.END)
        [Node.human_approval, Node.agent]).trace.take 2
      = [Node.human_approval, Node.agent]
    obtain ⟨mext, text, hm, ht⟩ := runLoop_extend model toolExec fuel
      (msgs ++ [Message.agent (model msgs).1 (model msgs).2])
      ((should_continue (msgs ++ [Message.agent (model msgs).1 (model msgs).2])).getD Node.END)
      [Node.human_approval, Node.agent]
    rw [ht]
    simp

/-- Witness for C4 at concrete control-prefixed and plain resumes. -/
theorem C4_resume_routing_witness :
    (check_approval_outcome [Message.user "<SYSTEM: done>"] = some Node.END
      ∧ resume model0 toolExec0 4 [Message.user "<SYSTEM: done>"]
          = ⟨[Message.user "<SYSTEM: done>"], Node.END, [Node.human_approval]⟩)
    ∧ (check_approval_outcome [Message.user "fix the dates"] = some Node.agent
      ∧ (resume model0 toolExec0 4 [Message.user "fix the dates"]).trace.take 2
          = [Node.human_approval, Node.agent]) :=
  ⟨(C4_resume_routing model0 toolExec0 4 [Message.user "<SYSTEM: done>"]
      "<SYSTEM: done>" rfl).1 (by decide),
   (C4_resume_routing model0 toolExec0 3 [Message.user "fix the dates"]
      "fix the dates" rfl).2 (by decide)⟩

/-- Claim C5: a resume attempt on a thread with no pending approval
interrupt is rejected synchronously with the client-facing 400 error and the
thread state is left unmutated.  (The other invalid-resume case of the
claim — a non-`UserMessage` resume payload — cannot arise at this boundary:
both endpoint branches construct the resume payload themselves as a
`UserMessage`.) -/
theorem C5_invalid_resume_rejected (model : List Message → String × List ToolRequest)
    (toolExec : String → String → String) (fuel : Nat)
    (db : String → Except String (List String × List (List String)))
    (st : ThreadState) (decision : String) (feedback : Option String)
    (h : st.pending ≠ Node.human_approval) :
    approval model toolExec fuel db st decision feedback
      = (Except.error "Conversation is not waiting for approval.", st) := by
  unfold approval
  rw [if_neg h]

/-- Witness for C5 on a concrete thread with no pending interrupt. -/
theorem C5_invalid_resume_rejected_witness :
    approval model0 toolExec0 3 db0 ⟨[Message.user "hi"], Node.END⟩ "approve" none
      = (Except.error "Conversation is not waiting for approval.",
         ⟨[Message.user "hi"], Node.END⟩) :=
  C5_invalid_resume_rejected model0 toolExec0 3 db0
    ⟨[Message.user "hi"], Node.END⟩ "approve" none (by simp)


/-- The reserved control message injected by `api.py` does start with the
reserved control prefix. -/
theorem control_msg_starts :
    startswith "<SYSTEM: Execution Completed Locally>" "<SYSTEM:" = true := by
  decide

/-- Resuming a log ending in the reserved control message is immediately
terminal, appending and executing nothing. -/
theorem resume_control_terminal (model : List Message → String × List ToolRequest)
    (toolExec : String → String → String) (fuel : Nat) (msgs : List Message) :
    resume model toolExec fuel
        (msgs ++ [Message.user "<SYSTEM: Execution Completed Locally>"])
      = ⟨msgs ++ [Message.user "<SYSTEM: Execution Completed Locally>"],
         Node.END, [Node.human_approval]⟩ := by
  have hc : check_approval_outcome
      (msgs ++ [Message.user "<SYSTEM: Execution Completed Locally>"]) = some Node.END := by
    unfold check_approval_outcome
    rw [List.getLast?_concat]
    simp [control_msg_starts]
  unfold resume
  rw [hc]
  exact runLoop_END model toolExec fuel _ [Node.human_approval]

/-- Claim C6 as stated is false at this input: approving a suspended
proposal resumes with the control-prefixed `UserMessage` and is terminal
with the proposal preserved in the log, but the answer reported to the
caller is the execution-result text, not the prior AI message. -/
theorem C6_counterexample :
    (approval model0 toolExec0 5 (fun _ => Except.ok (["a"], [["1"]]))
        ⟨[Message.user "q", Message.agent "```sql SELECT 1```" []], Node.human_approval⟩
        "approve" none).1
      = Except.ok ⟨"**Execution Result**:\n\n| a |\n| --- |\n| 1 |", "done", some "SELECT 1"⟩
    ∧ "**Execution Result**:\n\n| a |\n| --- |\n| 1 |" ≠ "```sql SELECT 1```"
    ∧ (approval model0 toolExec0 5 (fun _ => Except.ok (["a"], [["1"]]))
        ⟨[Message.user "q", Message.agent "```sql SELECT 1```" []], Node.human_approval⟩
        "approve" none).2.messages.getLast?
      ≠ some (Message.agent "```sql SELECT 1```" []) := by
  refine ⟨rfl, by decide, by decide⟩

/-- Claim C6 (amended): approving a thread suspended at human approval
(with the local execution succeeding) injects the reserved control
`UserMessage`, the run is terminal, the whole prior log — in particular the
proposal AI message — is preserved unmodified, and the response reported to
the caller is the execution-result text (not the prior AI message). -/
theorem C6_control_resume_terminal (model : List Message → String × List ToolRequest)
    (toolExec : String → String → String) (fuel : Nat)
    (db : String → Except String (List String × List (List String)))
    (st : ThreadState) (feedback : Option String)
    (h : st.pending = Node.human_approval)
    (hdb : (execute_query_locally db
        (extract_sql ((st.messages.getLast?).elim "" msgContent))).2 = none) :
    approval model toolExec fuel db st "approve" feedback
      = (Except.ok ⟨"**Execution Result**:\n\n"
            ++ (execute_query_locally db
                (extract_sql ((st.messages.getLast?).elim "" msgContent))).1,
          "done",
          some (extract_sql ((st.messages.getLast?).elim "" msgContent))⟩,
        ⟨st.messages ++ [Message.user "<SYSTEM: Execution Completed Locally>"],
         Node.END⟩) := by
  unfold approval
  rw [if_pos h]
  simp only [reduceIte]
  rcases hq : execute_query_locally db
      (extract_sql ((st.messages.getLast?).elim "" msgContent)) with ⟨rt, err⟩
  rw [hq] at hdb
  simp only at hdb
  subst hdb
  rw [resume_control_terminal]

/-- Witness for C6 (amended) at a concrete suspended thread. -/
theorem C6_control_resume_terminal_witness :
    approval model0 toolExec0 4 db0
        ⟨[Message.user "q", Message.agent "```sql SELECT 9```" []], Node.human_approval⟩
        "approve" none
      = (Except.ok ⟨"**Execution Result**:\n\n[Execution Result]: No results found.",
          "done", some "SELECT 9"⟩,
        ⟨[Message.user "q", Message.agent "```sql SELECT 9```" [],
          Message.user "<SYSTEM: Execution Completed Locally>"], Node.END⟩) := by
  have := C6_control_resume_terminal model0 toolExec0 4 db0
    ⟨[Message.user "q", Message.agent "```sql SELECT 9```" []], Node.human_approval⟩
    none rfl (by decide)
  simpa using this

/-- Claim C7: rejecting a pending approval (any decision other than
`approve`) appends the caller's feedback as a `UserMessage` (with the
`Rejected. Feedback: ` prefix, defaulting to `Rejected.`), and the resumed
run routes from the approval node back to the agent node — never terminal
and never to tool dispatch — with the feedback in the log the next model
call receives. -/
theorem C7_reject_feedback (model : List Message → String × List ToolRequest)
    (toolExec : String → String → String) (fuel : Nat)
    (db : String → Except String (List String × List (List String)))
    (st : ThreadState) (decision : String) (feedback : Option String)
    (h : st.pending = Node.human_approval) (hd : decision ≠ "approve") :
    let fb := match feedback with
      | none => "Rejected."
      | some f => if f = "" then "Rejected." else f
    let msgs2 := st.messages ++ [Message.user ("Rejected. Feedback: " ++ fb)]
    approval model toolExec fuel db st decision feedback
      = (Except.ok (process_run (resume model toolExec fuel msgs2)),
         ⟨(resume model toolExec fuel msgs2).messages,
          (resume model toolExec fuel msgs2).pending⟩)
    ∧ check_approval_outcome msgs2 = some Node.agent
    ∧ (resume model toolExec (fuel + 1) msgs2).messages.take (msgs2.length + 1)
        = msgs2 ++ [Message.agent (model msgs2).1 (model msgs2).2] := by
  intro fb msgs2
  have hc : check_approval_outcome msgs2 = some Node.agent := by
    unfold check_approval_outcome
    show (match msgs2.getLast? with
      | none => none
      | some (Message.user content) =>
          if startswith content "<SYSTEM:" then some Node.END else some Node.agent
      | some _ => some Node.END) = some Node.agent
    rw [show msgs2.getLast? = some (Message.user ("Rejected. Feedback: " ++ fb)) from
      List.getLast?_concat st.messages]
    simp [rejected_feedback_not_control]
  refine ⟨?_, hc, ?_⟩
  · unfold approval
    rw [if_pos h, if_neg hd]
  · have step : resume model toolExec (fuel + 1) msgs2
        = runLoop model toolExec fuel
            (msgs2 ++ [Message.agent (model msgs2).1 (model msgs2).2])
            ((should_continue (msgs2 ++ [Message.agent (model msgs2).1 (model msgs2).2])).getD Node.END)
            [Node.human_approval, Node.agent] := by
      unfold resume
      rw [hc]
      rfl
    rw [step]
    obtain ⟨mext, text, hm, ht⟩ := runLoop_extend model toolExec fuel
      (msgs2 ++ [Message.agent (model msgs2).1 (model msgs2).2])
      ((should_continue (msgs2 ++ [Message.agent (model msgs2).1 (model msgs2).2])).getD Node.END)
      [Node.human_approval, Node.agent]
    rw [hm]
    rw [show msgs2.length + 1
        = (msgs2 ++ [Message.agent (model msgs2).1 (model msgs2).2]).length by simp]
    exact List.take_left _ mext

/-- Witness for C7 at a concrete suspended thread and rejection. -/
theorem C7_reject_feedback_witness :
    approval model0 toolExec0 2 db0
        ⟨[Message.user "q", Message.agent "```sql SELECT 3```" []], Node.human_approval⟩
        "reject" (some "use 7 days")
      = (Except.ok (process_run (resume model0 toolExec0 2
            ([Message.user "q", Message.agent "```sql SELECT 3```" []]
              ++ [Message.user "Rejected. Feedback: use 7 days"]))),
         ⟨(resume model0 toolExec0 2
            ([Message.user "q", Message.agent "```sql SELECT 3```" []]
              ++ [Message.user "Rejected. Feedback: use 7 days"])).messages,
          (resume model0 toolExec0 2
            ([Message.user "q", Message.agent "```sql SELECT 3```" []]
              ++ [Message.user "Rejected. Feedback: use 7 days"])).pending⟩)
    ∧ check_approval_outcome
        ([Message.user "q", Message.agent "```sql SELECT 3```" []]
          ++ [Message.user "Rejected. Feedback: use 7 days"]) = some Node.agent
    ∧ (resume model0 toolExec0 2
        ([Message.user "q", Message.agent "```sql SELECT 3```" []]
          ++ [Message.user "Rejected. Feedback: use 7 days"])).messages.take 4
      = [Message.user "q", Message.agent "```sql SELECT 3```" [],
         Message.user "Rejected. Feedback: use 7 days"]
        ++ [Message.agent "hello" []] := by
  have := C7_reject_feedback model0 toolExec0 1 db0
    ⟨[Message.user "q", Message.agent "```sql SELECT 3```" []], Node.human_approval⟩
    "reject" (some "use 7 days") rfl (by decide)
  simp only at this
  exact this

/-- Claim C8: both the approve path of the approval endpoint and the
auto-execute path of the chat endpoint submit for execution exactly
`extract_sql` of the proposal message's text — the stripped capture of the
first fenced code block, falling back to the whole stripped text when the
regex finds no block. -/
theorem C8_query_extraction (model : List Message → String × List ToolRequest)
    (toolExec : String → String → String) (fuel : Nat)
    (db : String → Except String (List String × List (List String)))
    (st st2 : ThreadState) (feedback : Option String) (message content2 : String)
    (h1 : st.pending = Node.human_approval)
    (h2 : st2.pending ≠ Node.human_approval)
    (h3 : (startTurn model toolExec fuel st2.messages message).pending = Node.human_approval)
    (h4 : searchBlock content2.data = none) :
    (∃ resp, (approval model toolExec fuel db st "approve" feedback).1 = Except.ok resp
        ∧ resp.query = some (extract_sql ((st.messages.getLast?).elim "" msgContent)))
    ∧ (∃ m, (startTurn model toolExec fuel st2.messages message).messages.getLast? = some m
        ∧ (chat model toolExec fuel db st2 message true).1.query
            = some (extract_sql (msgContent m)))
    ∧ extract_sql content2 = pyStrip content2 := by
  refine ⟨?_, ?_, ?_⟩
  · unfold approval
    rw [if_pos h1]
    simp only [reduceIte]
    rcases hq : execute_query_locally db
        (extract_sql ((st.messages.getLast?).elim "" msgContent)) with ⟨rt, err⟩
    cases err with
    | none => exact ⟨_, rfl, rfl⟩
    | some e => exact ⟨_, rfl, rfl⟩
  · have hne : (startTurn model toolExec fuel st2.messages message).messages ≠ [] := by
      obtain ⟨mext, text, hm, ht⟩ := runLoop_extend model toolExec fuel
        (st2.messages ++ [Message.user message]) Node.agent []
      unfold startTurn
      rw [hm]
      simp
    obtain ⟨m, hlast⟩ : ∃ m,
        (startTurn model toolExec fuel st2.messages message).messages.getLast? = some m := by
      rcases hL : (startTurn model toolExec fuel st2.messages message).messages.getLast? with _ | m
      · exact absurd (List.getLast?_eq_none_iff.mp hL) hne
      · exact ⟨m, rfl⟩
    have hpr : process_run (startTurn model toolExec fuel st2.messages message)
        = ⟨msgContent m, "approval_required", none⟩ := by
      unfold process_run
      rw [hlast, h3]
      simp
    refine ⟨m, hlast, ?_⟩
    unfold chat
    rw [if_neg h2]
    rcases hq : execute_query_locally db (extract_sql (msgContent m)) with ⟨rt, err⟩
    cases err with
    | none => simp [hpr, hq]
    | some e => simp [hpr, hq]
  · unfold extract_sql
    rw [h4]

/-- Witness for C8 at a concrete suspended thread, fresh thread and
blockless text. -/
theorem C8_query_extraction_witness :
    (∃ resp, (approval model0 toolExec0 5 db0
          ⟨[Message.user "q", Message.agent "use ```sql SELECT 2``` now" []],
           Node.human_approval⟩ "approve" none).1 = Except.ok resp
        ∧ resp.query = some (extract_sql
            (([Message.user "q",
               Message.agent "use ```sql SELECT 2``` now" []].getLast?).elim "" msgContent)))
    ∧ (∃ m, (startTurn model0 toolExec0 5 ([] : List Message) "hi").messages.getLast? = some m
        ∧ (chat model0 toolExec0 5 db0 ⟨[], Node.END⟩ "hi" true).1.query
            = some (extract_sql (msgContent m)))
    ∧ extract_sql "plain text" = pyStrip "plain text" :=
  C8_query_extraction model0 toolExec0 5 db0
    ⟨[Message.user "q", Message.agent "use ```sql SELECT 2``` now" []], Node.human_approval⟩
    ⟨[], Node.END⟩ none "hi" "plain text" rfl (by decide) (by decide) (by decide)

/-- Claim C9: a chat call on a thread suspended at human approval does not
start a fresh turn with the submitted text: the text is appended as a
`UserMessage` prefixed with `Rejected. Feedback: ` and the suspended run is
resumed with no new input message (shown exactly for the non-auto-execute
call, and as a log-prefix property for every call). -/
theorem C9_suspended_chat_is_rejection (model : List Message → String × List ToolRequest)
    (toolExec : String → String → String) (fuel : Nat)
    (db : String → Except String (List String × List (List String)))
    (st : ThreadState) (message : String) (auto_execute : Bool)
    (h : st.pending = Node.human_approval) :
    let msgs2 := st.messages ++ [Message.user ("Rejected. Feedback: " ++ message)]
    (∃ ext, (chat model toolExec fuel db st message auto_execute).2.messages = msgs2 ++ ext)
    ∧ chat model toolExec fuel db st message false
        = (process_run (resume model toolExec fuel msgs2),
           ⟨(resume model toolExec fuel msgs2).messages,
            (resume model toolExec fuel msgs2).pending⟩) := by
  intro msgs2
  obtain ⟨e1, t1, hm1, ht1⟩ := runLoop_extend model toolExec fuel msgs2
    ((check_approval_outcome msgs2).getD Node.END) [Node.human_approval]
  have hres1 : (resume model toolExec fuel msgs2).messages = msgs2 ++ e1 := hm1
  constructor
  · unfold chat
    rw [if_pos h]
    by_cases hcond : (auto_execute = true)
        ∧ (process_run (resume model toolExec fuel msgs2)).status = "approval_required"
    · rcases hq : execute_query_locally db
          (extract_sql (process_run (resume model toolExec fuel msgs2)).response)
        with ⟨rt, err⟩
      cases err with
      | some e =>
        refine ⟨e1, ?_⟩
        simp only [hq, if_pos hcond]
        exact hres1
      | none =>
        obtain ⟨e2, t2, hm2, ht2⟩ := runLoop_extend model toolExec fuel
          ((resume model toolExec fuel msgs2).messages
            ++ [Message.user "<SYSTEM: Execution Completed Locally>"])
          ((check_approval_outcome ((resume model toolExec fuel msgs2).messages
            ++ [Message.user "<SYSTEM: Execution Completed Locally>"])).getD Node.END)
          [Node.human_approval]
        refine ⟨e1 ++ ([Message.user "<SYSTEM: Execution Completed Locally>"] ++ e2), ?_⟩
        simp only [hq, if_pos hcond]
        show (resume model toolExec fuel
            ((resume model toolExec fuel msgs2).messages
              ++ [Message.user "<SYSTEM: Execution Completed Locally>"])).messages
          = msgs2 ++ (e1 ++ ([Message.user "<SYSTEM: Execution Completed Locally>"] ++ e2))
        have hres2 : (resume model toolExec fuel
            ((resume model toolExec fuel msgs2).messages
              ++ [Message.user "<SYSTEM: Execution Completed Locally>"])).messages
          = ((resume model toolExec fuel msgs2).messages
              ++ [Message.user "<SYSTEM: Execution Completed Locally>"]) ++ e2 := hm2
        rw [hres2, hres1]
        simp
    · refine ⟨e1, ?_⟩
      simp only [if_neg hcond]
      exact hres1
  · unfold chat
    rw [if_pos h]
    rfl

/-- Witness for C9 at a concrete suspended thread. -/
theorem C9_suspended_chat_is_rejection_witness :
    (∃ ext, (chat model0 toolExec0 3 db0
        ⟨[Message.user "q", Message.agent "```sql SELECT 4```" []], Node.human_approval⟩
        "try again" true).2.messages
      = ([Message.user "q", Message.agent "```sql SELECT 4```" []]
          ++ [Message.user "Rejected. Feedback: try again"]) ++ ext)
    ∧ chat model0 toolExec0 3 db0
        ⟨[Message.user "q", Message.agent "```sql SELECT 4```" []], Node.human_approval⟩
        "try again" false
      = (process_run (resume model0 toolExec0 3
          ([Message.user "q", Message.agent "```sql SELECT 4```" []]
            ++ [Message.user "Rejected. Feedback: try again"])),
         ⟨(resume model0 toolExec0 3
            ([Message.user "q", Message.agent "```sql SELECT 4```" []]
              ++ [Message.user "Rejected. Feedback: try again"])).messages,
          (resume model0 toolExec0 3
            ([Message.user "q", Message.agent "```sql SELECT 4```" []]
              ++ [Message.user "Rejected. Feedback: try again"])).pending⟩) := by
  have := C9_suspended_chat_is_rejection model0 toolExec0 3 db0
    ⟨[Message.user "q", Message.agent "```sql SELECT 4```" []], Node.human_approval⟩
    "try again" true rfl
  simp only at this
  exact this

/-- Claim C10: the execute-action tool never propagates an exception — a
database error yields the string `Error executing query: <e>`; an empty
result set yields exactly `Query executed successfully per row count: 0`;
and a non-empty result is rendered as the table lines joined by newlines,
with at most 10 data rows (`2 +` header and separator) and a trailing
`... (N more rows)` line exactly when `N = results.length - 10` rows were
omitted. -/
theorem C10_execute_postgres_query (e : String) (columns : List String)
    (results : List (List String)) (hne : results ≠ []) :
    execute_postgres_query (Except.error e) = "Error executing query: " ++ e
    ∧ execute_postgres_query (Except.ok (columns, []))
        = "Query executed successfully per row count: 0"
    ∧ execute_postgres_query (Except.ok (columns, results))
        = String.intercalate "\n" (format_query_result_lines columns results)
    ∧ (results.take 10).length ≤ 10
    ∧ (format_query_result_lines columns results).length
        = 2 + min 10 results.length + (if 10 < results.length then 1 else 0)
    ∧ (10 < results.length →
        (format_query_result_lines columns results).getLast?
          = some ("... (" ++ toString (results.length - 10) ++ " more rows)")) := by
  refine ⟨rfl, rfl, ?_, ?_, ?_, ?_⟩
  · simp [execute_postgres_query, List.isEmpty_iff, hne]
  · rw [List.length_take]
    omega
  · unfold format_query_result_lines
    by_cases hgt : 10 < results.length
    · simp [hgt, List.length_take]
      omega
    · simp [hgt, List.length_take]
      omega
  · intro hgt
    unfold format_query_result_lines
    simp only [if_pos hgt]
    rw [← List.append_assoc]
    exact List.getLast?_concat _

/-- Witness for C10 at a concrete error, an empty result and a 12-row
result. -/
theorem C10_execute_postgres_query_witness :
    execute_postgres_query (Except.error "boom") = "Error executing query: " ++ "boom"
    ∧ execute_postgres_query (Except.ok (["a"], []))
        = "Query executed successfully per row count: 0"
    ∧ execute_postgres_query (Except.ok (["a"],
        [["1"],["2"],["3"],["4"],["5"],["6"],["7"],["8"],["9"],["10"],["11"],["12"]]))
        = String.intercalate "\n" (format_query_result_lines ["a"]
            [["1"],["2"],["3"],["4"],["5"],["6"],["7"],["8"],["9"],["10"],["11"],["12"]])
    ∧ (([["1"],["2"],["3"],["4"],["5"],["6"],["7"],["8"],["9"],["10"],["11"],["12"]] :
          List (List String)).take 10).length ≤ 10
    ∧ (format_query_result_lines ["a"]
        [["1"],["2"],["3"],["4"],["5"],["6"],["7"],["8"],["9"],["10"],["11"],["12"]]).length
        = 2 + min 10 ([["1"],["2"],["3"],["4"],["5"],["6"],["7"],["8"],["9"],["10"],["11"],["12"]] :
            List (List String)).length
          + (if 10 < ([["1"],["2"],["3"],["4"],["5"],["6"],["7"],["8"],["9"],["10"],["11"],["12"]] :
              List (List String)).length then 1 else 0)
    ∧ (10 < ([["1"],["2"],["3"],["4"],["5"],["6"],["7"],["8"],["9"],["10"],["11"],["12"]] :
          List (List String)).length →
        (format_query_result_lines ["a"]
          [["1"],["2"],["3"],["4"],["5"],["6"],["7"],["8"],["9"],["10"],["11"],["12"]]).getLast?
          = some ("... (" ++ toString (([["1"],["2"],["3"],["4"],["5"],["6"],["7"],["8"],["9"],
              ["10"],["11"],["12"]] : List (List String)).length - 10) ++ " more rows)")) :=
  C10_execute_postgres_query "boom" ["a"]
    [["1"],["2"],["3"],["4"],["5"],["6"],["7"],["8"],["9"],["10"],["11"],["12"]] (by decide)

end SqlAssistant
